import Mathlib

/-!
# Verification of the offloadmq task-broker core

A shallow embedding, in Lean 4, of the task-dispatch core of the
`offloadmq` capability-routed task broker, together with theorems settling
the frozen specification claims.

Modelling conventions, fixed once here:

* Times (`chrono::DateTime<Utc>`) are modelled as `Int` (seconds since an
  arbitrary epoch); durations (`chrono::TimeDelta`) likewise as `Int`
  seconds.  Only comparisons and subtraction of times occur in the code.
* `serde_json::Value` payloads are never inspected by the code under
  verification, so they are modelled as an uninterpreted `String`.
* The `sled` trees are modelled as association lists `List (String × V)`
  of typed values: serialization through `rmp_serde` is assumed lossless
  (the fault-free observation of the spec), and `sled` fallibility is
  dropped — every `?` on a pure storage call is modelled as success.
* The repository carries two revisions of the task records: in
  `src/models.rs` an `UnassignedTask` has a bare `Uuid` id plus a flat
  `capability` string, while `src/schema.rs`, `src/mq/scheduler.rs`,
  `src/db/persistent_task_storage.rs` and `src/api/client/mod.rs` use the
  composite `TaskId = { cap, id }` and read the capability as `task.id.cap`.
  We harmonise on the composite `TaskId` (as the spec's §3 does): the
  `capability` field of the `models.rs` revision is `id.cap` here, and the
  urgent map is keyed by the whole `TaskId`.
* `u8` agent tiers are modelled as `Nat`; the code only stores and compares
  tiers (no arithmetic), so the 0..255 range is immaterial.
-/

set_option autoImplicit false

namespace Offloadmq

/-- Model of `chrono::DateTime<Utc>`: seconds since an arbitrary epoch. -/
abbrev DateTime := Int

/-- Model of `chrono::TimeDelta` / `chrono::Duration`: seconds. -/
abbrev TimeDelta := Int

/-- Model of `serde_json::Value`: an uninterpreted value, never inspected
by the code under verification. -/
abbrev JsonValue := String

/-- `schema.rs` `TaskStatus`: the overall status of a task in the system. -/
inductive TaskStatus where
  | Pending
  | Queued
  | Pinned (agent : String)
  | Assigned
  | Starting
  | Running
  | Completed
  | Failed
  | Canceled
  | FailedRetryPending
  | FailedRetryDelayed
  deriving DecidableEq, Repr

/-- `impl Default for TaskStatus` in `schema.rs`: `Self::Pending`. -/
def TaskStatus.default : TaskStatus := TaskStatus.Pending

/-- `error.rs` `AppError` (payloads reduced to their display strings), plus
the `SchedulingImpossible` variant which `mq/scheduler.rs` constructs; that
variant is absent from the `error.rs` revision in the tree but is listed in
§7 of the spec with its own 4xx mapping. -/
inductive AppError where
  | Database (msg : String)
  | Internal (msg : String)
  | Serialization (msg : String)
  | Authentication (msg : String)
  | Authorization (msg : String)
  | Validation (msg : String)
  | NotFound (msg : String)
  | Conflict (msg : String)
  | BadRequest (msg : String)
  | Jwt (msg : String)
  | Io (msg : String)
  | Parse (msg : String)
  | BcryptError (msg : String)
  | SchedulingImpossible (msg : String)
  deriving DecidableEq, Repr

/-- `schema.rs` `TaskId`: composite task identifier `(cap, id)`. -/
structure TaskId where
  cap : String
  id : String
  deriving DecidableEq, Repr

/-- `impl Display for TaskId`: `"{cap}/{id}"`. -/
def TaskId.display (t : TaskId) : String := t.cap ++ "/" ++ t.id

/-- Association-list lookup, modelling `sled::Tree::get` (first match). -/
def kvLookup {V : Type} (k : String) : List (String × V) → Option V
  | [] => none
  | (k', v) :: rest => if k' = k then some v else kvLookup k rest

/-- Remove a key, modelling the destructive part of `sled::Tree::remove`. -/
def kvErase {V : Type} (k : String) : List (String × V) → List (String × V)
  | [] => []
  | (k', v) :: rest => if k' = k then kvErase k rest else (k', v) :: kvErase k rest

/-- Insert-or-replace, modelling `sled::Tree::insert` (upsert). -/
def kvInsert {V : Type} (k : String) (v : V) (m : List (String × V)) :
    List (String × V) :=
  (k, v) :: kvErase k m

/-- Rust `str::starts_with`, on the underlying character list. -/
def rustStartsWith (s pre : String) : Bool :=
  pre.data.isPrefixOf s.data

/-- Rust `str::ends_with`, on the underlying character list. -/
def rustEndsWith (s suffix : String) : Bool :=
  suffix.data.isSuffixOf s.data

/-- Rust `&s[..s.len() - 1]`: drop the final byte.  Only applied under an
`ends_with("*")` guard, where the final byte is the one-byte character
`'*'`, so dropping the last character is exact. -/
def rustDropLastByte (s : String) : String :=
  String.mk s.data.dropLast

/-- `models.rs` `ClientApiKey`. -/
structure ClientApiKey where
  key : String
  capabilities : List String
  is_predefined : Bool
  created : DateTime
  is_revoked : Bool
  deriving DecidableEq, Repr

/-- `db/apikeys.rs` `ApiKeysStorage`: the two `sled` trees. -/
structure ApiKeysStorage where
  active : List (String × ClientApiKey)
  archived : List (String × ClientApiKey)
  deriving Repr

namespace ApiKeysStorage

/-- `ApiKeysStorage::find_active`: point lookup in the `active` tree. -/
def find_active (st : ApiKeysStorage) (id : String) : Option ClientApiKey :=
  kvLookup id st.active

/-- `ApiKeysStorage::has_capability`: first-match loop over the key's
capability patterns, with universal wildcard `"*"`, prefix wildcard
`"p*"`, and exact match.  Rust's byte-level `str::ends_with` /
`str::starts_with` / `&cap[..cap.len() - 1]` are modelled on the character
lists underlying Lean strings; the only byte the code ever slices off is
the ASCII `'*'`, where byte and character boundaries coincide. -/
def has_capability (key_capabilities : List String) (required_cap : String) :
    Bool :=
  match key_capabilities with
  | [] => false
  | cap :: rest =>
    if cap = "*" then true
    else if rustEndsWith cap "*" then
      if rustStartsWith required_cap (rustDropLastByte cap) then true
      else has_capability rest required_cap
    else if cap = required_cap then true
    else has_capability rest required_cap

/-- `ApiKeysStorage::verify_key`: `Ok(())` iff an active, non-revoked
record matches the required capability, else `Authorization`. -/
def verify_key (st : ApiKeysStorage) (key : String) (cap : String) :
    Except AppError Unit :=
  match st.find_active key with
  | some key_descr =>
    if !key_descr.is_revoked && has_capability key_descr.capabilities cap then
      Except.ok ()
    else
      Except.error (AppError.Authorization "API key invalid")
  | none => Except.error (AppError.Authorization "API key invalid")

end ApiKeysStorage

/-- The spec's §3 pattern-matching relation, written from the spec's words:
a pattern matches `required_cap` if it is `"*"`, or it ends with `"*"` and
`required_cap` starts with the pattern without its final star, or it equals
`required_cap`. -/
def patternMatchesSpec (pat required_cap : String) : Prop :=
  pat = "*" ∨
    (rustEndsWith pat "*" = true ∧
      rustStartsWith required_cap (rustDropLastByte pat) = true) ∨
    pat = required_cap

instance (pat required_cap : String) :
    Decidable (patternMatchesSpec pat required_cap) := by
  unfold patternMatchesSpec; infer_instance

/-- `schema.rs` `GpuInfo`. -/
structure GpuInfo where
  vendor : String
  model : String
  vram_mb : Nat
  deriving DecidableEq, Repr

/-- `schema.rs` `SystemInfo`. -/
structure SystemInfo where
  os : String
  client : String
  runtime : String
  cpu_arch : String
  total_memory_mb : Nat
  gpu : Option GpuInfo
  deriving DecidableEq, Repr

/-- `models.rs` `Agent`. -/
structure Agent where
  uid : String
  uid_short : String
  personal_login_token : String
  registered_at : DateTime
  last_contact : Option DateTime
  capabilities : List String
  tier : Nat
  capacity : Nat
  system_info : SystemInfo
  deriving DecidableEq, Repr

/-- `Agent::ONLINE_TIMEOUT_SECS = 120`. -/
def Agent.ONLINE_TIMEOUT_SECS : TimeDelta := 120

/-- `Agent::is_online`: some `last_contact` within the last 120 seconds of
`now` (`Utc::now()` is passed explicitly). -/
def Agent.is_online (a : Agent) (now : DateTime) : Bool :=
  match a.last_contact with
  | some last => decide (now - last ≤ Agent.ONLINE_TIMEOUT_SECS)
  | none => false

/-- `models.rs` `TaskEvent`. -/
structure TaskEvent where
  timestamp : DateTime
  description : String
  deriving DecidableEq, Repr

/-- `models.rs` `UnassignedTask`, harmonised on the composite `TaskId` used
by `schema.rs` / `scheduler.rs` / `persistent_task_storage.rs` /
`api/client/mod.rs` (the `models.rs` revision's flat `capability` string is
`id.cap` here, and its bare `Uuid` id is `id.id`).

Modelled from the spec: the `api_key` field is the `data.api_key` of the
spec's §3 `UnassignedTask = { id, data: TaskSubmissionRequest, created_at }`,
which `api/client/mod.rs` reads as `unass.data.api_key`; the
`TaskSubmissionRequest` revision of `models.rs` in the tree lacks it, so it
is carried flat, faithful to the spec's words. -/
structure UnassignedTask where
  id : TaskId
  urgent : Bool
  restartable : Bool
  payload : JsonValue
  api_key : String
  created_at : DateTime
  deriving DecidableEq, Repr

/-- `models.rs` `AssignedTask` (same harmonisation as `UnassignedTask`). -/
structure AssignedTask where
  id : TaskId
  urgent : Bool
  restartable : Bool
  payload : JsonValue
  api_key : String
  agent_id : String
  status : TaskStatus
  history : List TaskEvent
  created_at : DateTime
  assigned_at : DateTime
  result : Option JsonValue
  deriving DecidableEq, Repr

/-- `UnassignedTask::assign_to` (`models.rs`): copy the task's fields, stamp
`agent_id` and `assigned_at = Utc::now()`, and fill the rest from
`AssignedTask::default()` — so `status = TaskStatus::default() = Pending`,
`history = []`, `result = None`. -/
def UnassignedTask.assign_to (t : UnassignedTask) (agent_id : String)
    (now : DateTime) : AssignedTask :=
  { id := t.id
    urgent := t.urgent
    restartable := t.restartable
    payload := t.payload
    api_key := t.api_key
    agent_id := agent_id
    status := TaskStatus.default
    history := []
    created_at := t.created_at
    assigned_at := now
    result := none }

/-! ## Durable task store (`db/persistent_task_storage.rs`) -/

/-- `TaskStorage`: the three `sled` trees, as typed association lists. -/
structure TaskStorage where
  unassigned : List (String × UnassignedTask)
  assigned : List (String × AssignedTask)
  archived : List (String × AssignedTask)
  deriving DecidableEq, Repr

namespace TaskStorage

/-- `TaskStorage::make_key`: composite key `"{cap}|{id}"`. -/
def make_key (id : TaskId) : String := id.cap ++ "|" ++ id.id

/-- `TaskStorage::add_unassigned`: insert into the `unassigned` tree. -/
def add_unassigned (st : TaskStorage) (task : UnassignedTask) : TaskStorage :=
  { st with unassigned := kvInsert (make_key task.id) task st.unassigned }

/-- `TaskStorage::assign_task`: `sled::Tree::remove` on `unassigned`
returns the previous value if present; on a hit the task is re-synthesized
via `assign_to` and inserted into `assigned`; on a miss the call fails with
`Conflict` and nothing is touched.  The returned pair is (result, poststate). -/
def assign_task (st : TaskStorage) (id : TaskId) (agent_id : String)
    (now : DateTime) : Except AppError AssignedTask × TaskStorage :=
  let key := make_key id
  match kvLookup key st.unassigned with
  | some unassigned_task =>
    let assigned := unassigned_task.assign_to agent_id now
    (Except.ok assigned,
      { st with
        unassigned := kvErase key st.unassigned
        assigned := kvInsert key assigned st.assigned })
  | none =>
    (Except.error (AppError.Conflict ("Unassigned task not found: " ++ id.display)),
      st)

/-- `TaskStorage::get_unassigned`: point lookup. -/
def get_unassigned (st : TaskStorage) (id : TaskId) : Option UnassignedTask :=
  kvLookup (make_key id) st.unassigned

/-- `TaskStorage::get_assigned`: point lookup. -/
def get_assigned (st : TaskStorage) (id : TaskId) : Option AssignedTask :=
  kvLookup (make_key id) st.assigned

/-- `TaskStorage::update_assigned`: upsert into `assigned`. -/
def update_assigned (st : TaskStorage) (assigned : AssignedTask) : TaskStorage :=
  { st with assigned := kvInsert (make_key assigned.id) assigned st.assigned }

/-- `TaskStorage::list_unassigned_for_capability`: prefix scan on
`"{capability}|"` over the `unassigned` tree. -/
def list_unassigned_for_capability (st : TaskStorage) (capability : String) :
    List UnassignedTask :=
  ((st.unassigned.filter (fun kv => rustStartsWith kv.1 (capability ++ "|"))).map
    (fun kv => kv.2))

/-- `TaskStorage::list_unassigned_with_caps`: union (concatenation) of the
per-capability prefix scans. -/
def list_unassigned_with_caps (st : TaskStorage) (caps : List String) :
    List UnassignedTask :=
  (caps.map (fun x => st.list_unassigned_for_capability x)).flatten

end TaskStorage

/-! ## Urgent task store (`mq/urgent.rs`)

The `tokio` locks and the `Arc` sharing of `TaskState` serialize every
operation behind the map's writer lock, so the store is modelled as a
sequential state: each operation is a pure function from store to store.
The `watch` channel is modelled by its observable content: the last value
sent (`notify_last`), initially the `TaskStatus::Pending` the channel is
created with. -/

/-- `mq/urgent.rs` `TaskState`. -/
structure TaskState where
  status : TaskStatus
  notify_last : TaskStatus
  deriving DecidableEq, Repr

/-- `mq/urgent.rs` `UrgentTaskEntry`. -/
structure UrgentTaskEntry where
  task : UnassignedTask
  assigned_task : Option AssignedTask
  state : TaskState
  created_at : DateTime
  ttl : TimeDelta
  deriving DecidableEq, Repr

/-- `mq/urgent.rs` `UrgentTaskStore`: an `IndexMap` keyed by the task id,
iteration in insertion order. -/
structure UrgentTaskStore where
  tasks : List (TaskId × UrgentTaskEntry)
  deriving DecidableEq, Repr

namespace UrgentTaskStore

/-- `IndexMap::get`: first (unique) entry with the key. -/
def lookup (s : UrgentTaskStore) (task_id : TaskId) : Option UrgentTaskEntry :=
  match s.tasks.find? (fun item => item.1 = task_id) with
  | some item => some item.2
  | none => none

/-- `IndexMap::insert`: replace in place when the key exists, else append
at the tail (preserving insertion order). -/
def indexInsert (task_id : TaskId) (e : UrgentTaskEntry) :
    List (TaskId × UrgentTaskEntry) → List (TaskId × UrgentTaskEntry)
  | [] => [(task_id, e)]
  | (k, v) :: rest =>
    if k = task_id then (task_id, e) :: rest
    else (k, v) :: indexInsert task_id e rest

/-- `IndexMap::get_mut` + in-place mutation: replace the value at the key,
keeping its position; no-op when the key is absent. -/
def replaceEntry (task_id : TaskId) (e : UrgentTaskEntry) :
    List (TaskId × UrgentTaskEntry) → List (TaskId × UrgentTaskEntry)
  | [] => []
  | (k, v) :: rest =>
    if k = task_id then (task_id, e) :: rest
    else (k, v) :: replaceEntry task_id e rest

/-- `UrgentTaskStore::find_with_capabilities`: first entry in iteration
(= insertion) order with no `assigned_task` whose capability is in `caps`;
read-only. -/
def find_with_capabilities (s : UrgentTaskStore) (caps : List String) :
    Option UnassignedTask :=
  (s.tasks.find? (fun item =>
      item.2.assigned_task.isNone && caps.contains item.2.task.id.cap)).map
    (fun item => item.2.task)

/-- `UrgentTaskStore::add_task`: fresh `watch` channel and state at
`Pending`, entry with no `assigned_task`, `created_at = Utc::now()`,
`ttl = TimeDelta::seconds(ttl_secs)`, inserted keyed by the task id.
(The `Arc<TaskState>` handle the Rust function returns lives inside the
entry here.) -/
def add_task (s : UrgentTaskStore) (task : UnassignedTask) (ttl_secs : Int)
    (now : DateTime) : UrgentTaskStore :=
  let state : TaskState := { status := TaskStatus.Pending
                             notify_last := TaskStatus.Pending }
  let entry : UrgentTaskEntry :=
    { task := task
      assigned_task := none
      state := state
      created_at := now
      ttl := ttl_secs }
  { tasks := indexInsert task.id entry s.tasks }

/-- `UrgentTaskStore::assign_task`: when the entry exists, its
`assigned_task` is overwritten with `task.assign_to(agent)` *before* the
status is examined; only then, if the status is still `Pending`, it moves
to `Assigned`, the change is broadcast, and the call returns true.  In
every other case it returns false — but the `assigned_task` overwrite has
already happened. -/
def assign_task (s : UrgentTaskStore) (task_id : TaskId) (agent : String)
    (now : DateTime) : Bool × UrgentTaskStore :=
  match s.lookup task_id with
  | none => (false, s)
  | some entry =>
    let entry1 : UrgentTaskEntry :=
      { entry with assigned_task := some (entry.task.assign_to agent now) }
    if entry1.state.status = TaskStatus.Pending then
      let entry2 : UrgentTaskEntry :=
        { entry1 with state := { status := TaskStatus.Assigned
                                 notify_last := TaskStatus.Assigned } }
      (true, { tasks := replaceEntry task_id entry2 s.tasks })
    else
      (false, { tasks := replaceEntry task_id entry1 s.tasks })

/-- `UrgentTaskStore::complete_task`: missing entry is an `Ok(())` no-op;
an entry without `assigned_task` is a `Conflict`; otherwise the payload is
stored into `assigned_task.result`, the status moves to `Completed` /
`Failed` according to `success`, and the new status is broadcast. -/
def complete_task (s : UrgentTaskStore) (task_id : TaskId) (success : Bool)
    (payload : JsonValue) : Except AppError UrgentTaskStore :=
  match s.lookup task_id with
  | none => Except.ok s
  | some entry =>
    match entry.assigned_task with
    | none => Except.error (AppError.Conflict "Task is not assigned but reported")
    | some assigned =>
      let new_status := if success then TaskStatus.Completed else TaskStatus.Failed
      let entry1 : UrgentTaskEntry :=
        { entry with
          assigned_task := some { assigned with result := some payload }
          state := { status := new_status, notify_last := new_status } }
      Except.ok { tasks := replaceEntry task_id entry1 s.tasks }

/-- `UrgentTaskStore::get_assigned_task`: the entry's `assigned_task`, if
both exist. -/
def get_assigned_task (s : UrgentTaskStore) (task_id : TaskId) :
    Option AssignedTask :=
  match s.lookup task_id with
  | some entry => entry.assigned_task
  | none => none

/-- `UrgentTaskStore::remove_task` (`IndexMap::shift_remove`): erase the
entry, preserving the order of the rest. -/
def remove_task (s : UrgentTaskStore) (task_id : TaskId) : UrgentTaskStore :=
  { tasks := s.tasks.filter (fun item => item.1 ≠ task_id) }

end UrgentTaskStore

/-! ## Scheduler (`mq/scheduler.rs`)

`CachedAgentStorage::list_all_agents` is a full durable scan (the cache is
bypassed), so the agent registry is modelled by the list of agents it
returns.  `Utc::now()` is passed explicitly. -/

/-- `has_potential_agents_for`: the source loops over `list_all_agents()`
and returns at the first agent that advertises `cap` and is online;
equivalently, `any`. -/
def has_potential_agents_for (cap : String) (agents : List Agent)
    (now : DateTime) : Bool :=
  agents.any (fun agent => agent.capabilities.contains cap && agent.is_online now)

/-- Stable insertion into a list sorted by descending tier: the new
element goes before the first element whose tier does not exceed it. -/
def insertByTierDesc (a : Agent) : List Agent → List Agent
  | [] => [a]
  | b :: rest =>
    if b.tier ≤ a.tier then a :: b :: rest else b :: insertByTierDesc a rest

/-- Stable sort by descending tier, modelling
`collection.sort_by(|a, b| b.tier.cmp(&a.tier))` (Rust's `sort_by` is a
stable sort; every stable sort under the same comparator yields the same
list, so this structural insertion sort is extensionally the same
function). -/
def sortByTierDesc : List Agent → List Agent
  | [] => []
  | a :: rest => insertByTierDesc a (sortByTierDesc rest)

/-- `all_online_agents_for`: agents advertising `cap` that are online, in
scan order, then sorted by descending tier. -/
def all_online_agents_for (cap : String) (agents : List Agent)
    (now : DateTime) : List Agent :=
  sortByTierDesc (agents.filter (fun agent =>
    agent.capabilities.contains cap && agent.is_online now))

/-- The `top_online_tier` computed per task inside
`find_assignable_non_urgent_tasks_with_capabilities_for_tier`:
`all_online_agents_for(..).map(|agent| agent.tier).max().unwrap_or_default()`.
For `u8` values, `.max().unwrap_or_default()` is the fold of `max` with
identity `0`. -/
def top_online_tier (cap : String) (agents : List Agent) (now : DateTime) :
    Nat :=
  ((all_online_agents_for cap agents now).map (fun agent => agent.tier)).foldr
    max 0

/-- `find_assignable_non_urgent_tasks_with_capabilities_for_tier`: list the
unassigned tasks matching any of `caps`; keep each task unless some online
agent advertising its capability has a strictly higher tier (the loop
pushes the task exactly when `¬(top_online_tier > tier)`). -/
def find_assignable_non_urgent_tasks_with_capabilities_for_tier
    (store : TaskStorage) (caps : List String) (tier : Nat)
    (agents : List Agent) (now : DateTime) : List UnassignedTask :=
  (store.list_unassigned_with_caps caps).filter (fun task =>
    !(top_online_tier task.id.cap agents now > tier))

/-- The gatekeeping prefix of `submit_urgent_task`: reject with
`SchedulingImpossible` when no online agent advertises the capability,
otherwise insert the task into the urgent store with a 60-second TTL
(after which the Rust function subscribes to the entry's status channel
and blocks until a terminal status; that wait involves other concurrent
actors and is outside this sequential embedding — the returned store is
the state in which the wait begins). -/
def submit_urgent_task_gate (store : UrgentTaskStore) (agents : List Agent)
    (task : UnassignedTask) (now : DateTime) :
    Except AppError UrgentTaskStore :=
  if !(has_potential_agents_for task.id.cap agents now) then
    Except.error (AppError.SchedulingImpossible
      ("no online runners for capability " ++ task.id.cap))
  else
    Except.ok (store.add_task task 60 now)

/-! ## Client status poll (`api/client/mod.rs::poll_task_status`) -/

/-- The successful bodies `poll_task_status` can answer with.  The
`into_status_report()` projection is code of the repository missing from
`src/` (only its call sites are present); it is modelled from the spec as
the injection of the record it reports on — the claims about the handler
depend only on which branch answers, never on the projected fields. -/
inductive PollResponse where
  | assignedReport (t : AssignedTask)
  | unassignedReport (t : UnassignedTask)
  | urgentTask (t : AssignedTask)
  deriving DecidableEq, Repr

/-- The slice of `AppState` that `poll_task_status` reads. -/
structure AppStateModel where
  tasks : TaskStorage
  urgent : UrgentTaskStore
  deriving DecidableEq, Repr

/-- `poll_task_status`: durable `assigned` first, then durable
`unassigned` — in both, an entry whose stored `api_key` differs from the
request's is mapped to `None` — then the urgent store's assigned shell
(returned without any key check); `NotFound` when everything misses. -/
def poll_task_status (st : AppStateModel) (task_id : TaskId)
    (api_key : String) : Except AppError PollResponse :=
  let fromAssigned : Option PollResponse :=
    match st.tasks.get_assigned task_id with
    | some ass =>
      if ass.api_key ≠ api_key then none
      else some (PollResponse.assignedReport ass)
    | none => none
  let fromDurable : Option PollResponse :=
    match fromAssigned with
    | some r => some r
    | none =>
      match st.tasks.get_unassigned task_id with
      | some unass =>
        if unass.api_key ≠ api_key then none
        else some (PollResponse.unassignedReport unass)
      | none => none
  match fromDurable with
  | some response => Except.ok response
  | none =>
    match st.urgent.get_assigned_task task_id with
    | some urgent => Except.ok (PollResponse.urgentTask urgent)
    | none => Except.error (AppError.NotFound task_id.display)

deriving instance DecidableEq for Except

/-- Whether a handler outcome is an authorization (403-mapped) failure. -/
def isAuthorizationFailure {α : Type} : Except AppError α → Bool
  | Except.error (AppError.Authorization _) => true
  | _ => false

/-! ## Spec-side definitions, for refinement comparisons

These follow the spec's words, to be compared against the definitions
above, which follow the source. -/

/-- The spec's §4.5 description of `find_with_capabilities`: "the first
entry in insertion order whose `assigned_task = none` and whose
`task.capability ∈ caps`". -/
def find_with_capabilities_spec (s : UrgentTaskStore) (caps : List String) :
    Option UnassignedTask :=
  ((s.tasks.filter (fun item =>
      item.2.assigned_task.isNone && caps.contains item.2.task.id.cap)).head?).map
    (fun item => item.2.task)

/-- The spec's §4.6 description of `top_online_tier`: "the maximum tier
over agents that are online and advertise the capability, or `0` when no
such agent exists" (no sorting step). -/
def top_online_tier_spec (cap : String) (agents : List Agent)
    (now : DateTime) : Nat :=
  ((agents.filter (fun agent =>
      agent.capabilities.contains cap && agent.is_online now)).map
    (fun agent => agent.tier)).foldr max 0

/-! ## Operation sequences over the urgent store

Used to state claims of the form "every subsequent call": the agent-facing
mutations of the urgent store that can run between two pick-up attempts. -/

/-- A store-mutating urgent-store call: a pick-up (`assign_task`) or a
final report (`complete_task`). -/
inductive UrgentOp where
  | assignOp (task_id : TaskId) (agent : String) (now : DateTime)
  | completeOp (task_id : TaskId) (success : Bool) (payload : JsonValue)
  deriving DecidableEq, Repr

/-- Run one urgent-store call for its state effect (a failed
`complete_task` leaves the store unchanged). -/
def applyUrgentOp (s : UrgentTaskStore) : UrgentOp → UrgentTaskStore
  | UrgentOp.assignOp id a n => (s.assign_task id a n).2
  | UrgentOp.completeOp id success payload =>
    match s.complete_task id success payload with
    | Except.ok s' => s'
    | Except.error _ => s

/-- Run a sequence of urgent-store calls left to right. -/
def applyUrgentOps (s : UrgentTaskStore) (ops : List UrgentOp) :
    UrgentTaskStore :=
  ops.foldl applyUrgentOp s

/-- Invariant of an urgent entry between a winning pick-up and its
removal: the entry is present, its status has left `Pending`, and the
underlying task is unchanged. -/
def nonPendingWithTask (s : UrgentTaskStore) (id : TaskId)
    (t : UnassignedTask) : Prop :=
  ∃ e, s.lookup id = some e ∧ e.state.status ≠ TaskStatus.Pending ∧ e.task = t

/-! ## Concrete sample states

Closed inputs used by the counterexamples and the witnesses. -/

def sampleSystemInfo : SystemInfo :=
  { os := "linux", client := "c", runtime := "r", cpu_arch := "x86_64",
    total_memory_mb := 1024, gpu := none }

def sampleAgent : Agent :=
  { uid := "agent-1", uid_short := "agent-1", personal_login_token := "tok",
    registered_at := 0, last_contact := some 100, capabilities := ["echo"],
    tier := 3, capacity := 1, system_info := sampleSystemInfo }

def sampleTask1 : UnassignedTask :=
  { id := { cap := "echo", id := "001" }, urgent := true, restartable := false,
    payload := "p1", api_key := "key1", created_at := 0 }

def sampleTask2 : UnassignedTask :=
  { id := { cap := "echo", id := "002" }, urgent := true, restartable := false,
    payload := "p2", api_key := "key1", created_at := 1 }

/-- A durable store holding exactly `sampleTask1`, unassigned. -/
def sampleStorage : TaskStorage :=
  { unassigned := [(TaskStorage.make_key sampleTask1.id, sampleTask1)],
    assigned := [], archived := [] }

/-- An empty urgent store. -/
def emptyUrgentStore : UrgentTaskStore := { tasks := [] }

/-- Urgent store after `add_task(sampleTask1, 60)` at time 0. -/
def sampleUrgentStore : UrgentTaskStore :=
  emptyUrgentStore.add_task sampleTask1 60 0

/-- The entry `add_task(sampleTask1, 60)` creates at time 0. -/
def sampleEntry1 : UrgentTaskEntry :=
  { task := sampleTask1, assigned_task := none,
    state := { status := TaskStatus.Pending, notify_last := TaskStatus.Pending },
    created_at := 0, ttl := 60 }

/-- `sampleUrgentStore` after agent `"a1"` wins the pick-up at time 1. -/
def sampleUrgentStoreAssigned : UrgentTaskStore :=
  (sampleUrgentStore.assign_task sampleTask1.id "a1" 1).2

/-- The entry of `sampleUrgentStoreAssigned`. -/
def sampleAssignedEntry : UrgentTaskEntry :=
  { task := sampleTask1, assigned_task := some (sampleTask1.assign_to "a1" 1),
    state := { status := TaskStatus.Assigned, notify_last := TaskStatus.Assigned },
    created_at := 0, ttl := 60 }

/-- A poll-handler state whose durable `assigned` tree holds
`sampleTask1` assigned to `agent-1` (stored `api_key = "key1"`), with
nothing urgent. -/
def samplePollState : AppStateModel :=
  { tasks :=
      { unassigned := []
        assigned := [(TaskStorage.make_key sampleTask1.id,
          sampleTask1.assign_to "agent-1" 5)]
        archived := [] }
    urgent := emptyUrgentStore }

/-! # Theorems

Helper lemmas first, then one theorem per claim (with its witness or
counterexample). -/

theorem kvLookup_kvInsert_self {V : Type} (k : String) (v : V)
    (m : List (String × V)) : kvLookup k (kvInsert k v m) = some v := by
  simp [kvInsert, kvLookup]

theorem kvLookup_kvErase_self {V : Type} (k : String) (m : List (String × V)) :
    kvLookup k (kvErase k m) = none := by
  induction m with
  | nil => rfl
  | cons p rest ih =>
    obtain ⟨k', v⟩ := p
    by_cases h : k' = k
    · simpa [kvErase, h] using ih
    · simpa [kvErase, kvLookup, h] using ih

/-- A string starts with itself minus its final byte. -/
theorem rustStartsWith_dropLastByte (s : String) :
    rustStartsWith s (rustDropLastByte s) = true := by
  simpa [rustStartsWith, rustDropLastByte, List.isPrefixOf_iff_prefix] using
    List.dropLast_prefix s.data

/-- The `has_capability` loop decides exactly the spec's §3 pattern
relation, existentially over the key's patterns. -/
theorem has_capability_iff_exists (caps : List String) (required : String) :
    ApiKeysStorage.has_capability caps required = true ↔
      ∃ pat ∈ caps, patternMatchesSpec pat required := by
  induction caps with
  | nil => simp [ApiKeysStorage.has_capability]
  | cons cap rest ih =>
    constructor
    · intro h
      unfold ApiKeysStorage.has_capability at h
      split at h
      · exact ⟨cap, List.mem_cons_self _ _, Or.inl (by assumption)⟩
      · split at h
        · split at h
          · exact ⟨cap, List.mem_cons_self _ _,
              Or.inr (Or.inl ⟨by assumption, by assumption⟩)⟩
          · obtain ⟨pat, hmem, hpm⟩ := ih.mp h
            exact ⟨pat, List.mem_cons_of_mem _ hmem, hpm⟩
        · split at h
          · exact ⟨cap, List.mem_cons_self _ _, Or.inr (Or.inr (by assumption))⟩
          · obtain ⟨pat, hmem, hpm⟩ := ih.mp h
            exact ⟨pat, List.mem_cons_of_mem _ hmem, hpm⟩
    · rintro ⟨pat, hmem, hpm⟩
      unfold ApiKeysStorage.has_capability
      rcases List.mem_cons.mp hmem with heq | hmem'
      · subst heq
        rcases hpm with h1 | ⟨h2a, h2b⟩ | h3
        · simp [h1]
        · by_cases hstar : pat = "*"
          · simp [hstar]
          · simp [hstar, h2a, h2b]
        · subst h3
          by_cases hstar : pat = "*"
          · simp [hstar]
          · by_cases hend : rustEndsWith pat "*"
            · simp [hstar, hend, rustStartsWith_dropLastByte]
            · simp [hstar, hend]
      · have hrest : ApiKeysStorage.has_capability rest required = true :=
          ih.mpr ⟨pat, hmem', hpm⟩
        by_cases hstar : cap = "*"
        · simp [hstar]
        · by_cases hend : rustEndsWith cap "*"
          · by_cases hpre : rustStartsWith required (rustDropLastByte cap)
            · simp [hstar, hend, hpre]
            · simp [hstar, hend, hpre, hrest]
          · by_cases hexact : cap = required
            · simp [hstar, hend, hexact, hrest]
            · simp [hstar, hend, hexact, hrest]

/-- `List.find?` is the head of the filtered list. -/
theorem find?_eq_head?_filter {α : Type} (p : α → Bool) (l : List α) :
    l.find? p = (l.filter p).head? := by
  induction l with
  | nil => rfl
  | cons a rest ih =>
    by_cases h : p a
    · rw [List.find?_cons_of_pos _ h, List.filter_cons_of_pos h]
      rfl
    · rw [List.find?_cons_of_neg _ h, List.filter_cons_of_neg h]
      exact ih

theorem lookup_indexInsert_self (l : List (TaskId × UrgentTaskEntry))
    (id : TaskId) (e : UrgentTaskEntry) :
    (UrgentTaskStore.mk (UrgentTaskStore.indexInsert id e l)).lookup id =
      some e := by
  induction l with
  | nil => simp [UrgentTaskStore.lookup, UrgentTaskStore.indexInsert, List.find?]
  | cons kv rest ih =>
    obtain ⟨k, v⟩ := kv
    by_cases h : k = id
    · simp [UrgentTaskStore.indexInsert, h, UrgentTaskStore.lookup, List.find?]
    · simpa [UrgentTaskStore.indexInsert, h, UrgentTaskStore.lookup,
        List.find?] using ih

theorem lookup_replaceEntry_self (l : List (TaskId × UrgentTaskEntry))
    (id : TaskId) (e : UrgentTaskEntry) :
    (UrgentTaskStore.mk (UrgentTaskStore.replaceEntry id e l)).lookup id =
      ((UrgentTaskStore.mk l).lookup id).map (fun _ => e) := by
  induction l with
  | nil => simp [UrgentTaskStore.lookup, UrgentTaskStore.replaceEntry, List.find?]
  | cons kv rest ih =>
    obtain ⟨k, v⟩ := kv
    by_cases h : k = id
    · simp [UrgentTaskStore.replaceEntry, h, UrgentTaskStore.lookup, List.find?]
    · simpa [UrgentTaskStore.replaceEntry, h, UrgentTaskStore.lookup,
        List.find?] using ih

theorem lookup_replaceEntry_ne (l : List (TaskId × UrgentTaskEntry))
    (id k : TaskId) (e : UrgentTaskEntry) (h : k ≠ id) :
    (UrgentTaskStore.mk (UrgentTaskStore.replaceEntry id e l)).lookup k =
      (UrgentTaskStore.mk l).lookup k := by
  induction l with
  | nil => simp [UrgentTaskStore.lookup, UrgentTaskStore.replaceEntry, List.find?]
  | cons kv rest ih =>
    obtain ⟨k', v⟩ := kv
    by_cases hk : k' = id
    · subst hk
      simp [UrgentTaskStore.replaceEntry, UrgentTaskStore.lookup, List.find?,
        Ne.symm h]
    · by_cases hk2 : k' = k
      · subst hk2
        simp [UrgentTaskStore.replaceEntry, hk, UrgentTaskStore.lookup,
          List.find?]
      · simpa [UrgentTaskStore.replaceEntry, hk, UrgentTaskStore.lookup,
          List.find?, hk2] using ih

theorem insertByTierDesc_perm (a : Agent) (l : List Agent) :
    (insertByTierDesc a l).Perm (a :: l) := by
  induction l with
  | nil => simp [insertByTierDesc]
  | cons b rest ih =>
    by_cases h : b.tier ≤ a.tier
    · simp [insertByTierDesc, h]
    · simp only [insertByTierDesc, h, if_false]
      exact (ih.cons b).trans (List.Perm.swap a b rest)

theorem sortByTierDesc_perm (l : List Agent) : (sortByTierDesc l).Perm l := by
  induction l with
  | nil => simp [sortByTierDesc]
  | cons a rest ih =>
    exact (insertByTierDesc_perm a (sortByTierDesc rest)).trans (ih.cons a)

/-- The per-task tier computed by the scheduler (which sorts the online
agents first) agrees with the spec's words (a plain maximum over the
filtered agents). -/
theorem top_online_tier_eq_spec (cap : String) (agents : List Agent)
    (now : DateTime) :
    top_online_tier cap agents now = top_online_tier_spec cap agents now := by
  unfold top_online_tier top_online_tier_spec all_online_agents_for
  refine List.Perm.foldr_eq ?_ 0
  exact (sortByTierDesc_perm _).map (fun agent => agent.tier)

/-- C9: API-key verification.  `verify(key, required_cap)` succeeds iff an
active record for `key` exists with `is_revoked = false` and some pattern
in its capabilities matches `required_cap` — where a pattern matches iff it
equals `"*"`, or it ends with `"*"` and `required_cap` starts with the
pattern without its final star, or it equals `required_cap` exactly; in
every other case `verify` fails with an `Authorization` error. -/
theorem C9_verify_key_iff (st : ApiKeysStorage) (key cap : String) :
    (st.verify_key key cap = Except.ok () ↔
      ∃ r, st.find_active key = some r ∧ r.is_revoked = false ∧
        ∃ pat ∈ r.capabilities, patternMatchesSpec pat cap) ∧
    (st.verify_key key cap = Except.ok () ∨
      st.verify_key key cap =
        Except.error (AppError.Authorization "API key invalid")) := by
  unfold ApiKeysStorage.verify_key
  cases hfa : st.find_active key with
  | none => simp [hfa]
  | some r =>
    by_cases hrev : r.is_revoked
    · simp [hfa, hrev]
    · by_cases hcap : ApiKeysStorage.has_capability r.capabilities cap
      · simp [hfa, hrev, hcap, (has_capability_iff_exists r.capabilities cap).mp hcap]
      · have hfail : ¬∃ pat ∈ r.capabilities, patternMatchesSpec pat cap := by
          intro hex
          exact hcap ((has_capability_iff_exists r.capabilities cap).mpr hex)
        simp [hfa, hrev, hcap, hfail]

/-- C4: tier suppression.  A regular unassigned task returned by the
per-capability scans is included in the scheduler's regular-pollable set
iff `top_online_tier ≤ my_tier`, where `top_online_tier` is the maximum
tier over agents that are online and advertise the task's capability (`0`
when no such agent exists); a tie at the same top tier does not suppress —
the comparison is strict `>`. -/
theorem C4_tier_suppression (store : TaskStorage) (caps : List String)
    (my_tier : Nat) (agents : List Agent) (now : DateTime)
    (task : UnassignedTask) :
    task ∈ find_assignable_non_urgent_tasks_with_capabilities_for_tier
        store caps my_tier agents now ↔
      task ∈ store.list_unassigned_with_caps caps ∧
        top_online_tier_spec task.id.cap agents now ≤ my_tier := by
  unfold find_assignable_non_urgent_tasks_with_capabilities_for_tier
  rw [List.mem_filter, top_online_tier_eq_spec]
  simp [Nat.not_lt]

/-- C5: FIFO urgent discovery.  `find_with_capabilities(caps)` returns the
first entry in `add_task` insertion order whose `assigned_task` is none and
whose capability is in `caps` (the head of the filtered insertion-order
list), and — being read-only — two consecutive calls with no intervening
assignment or removal return the same task: adding `t1` then `t2` to an
empty store, both discoveries return `t1`. -/
theorem C5_fifo_urgent_discovery (s : UrgentTaskStore) (caps : List String)
    (t1 t2 : UnassignedTask) (n1 n2 : DateTime)
    (hcap : t1.id.cap ∈ caps) (hne : t1.id ≠ t2.id) :
    s.find_with_capabilities caps = find_with_capabilities_spec s caps ∧
    ((emptyUrgentStore.add_task t1 60 n1).add_task t2 60 n2).find_with_capabilities
        caps = some t1 := by
  constructor
  · unfold UrgentTaskStore.find_with_capabilities find_with_capabilities_spec
    rw [find?_eq_head?_filter]
  · simp [UrgentTaskStore.add_task, UrgentTaskStore.indexInsert,
      emptyUrgentStore, UrgentTaskStore.find_with_capabilities, List.find?,
      hcap, hne]

/-- C5 witness: the theorem applied at `sampleTask1`, `sampleTask2`,
`caps = ["echo"]`. -/
theorem C5_fifo_urgent_discovery_witness :
    sampleUrgentStore.find_with_capabilities ["echo"] =
        find_with_capabilities_spec sampleUrgentStore ["echo"] ∧
    ((emptyUrgentStore.add_task sampleTask1 60 0).add_task sampleTask2 60
        1).find_with_capabilities ["echo"] = some sampleTask1 :=
  C5_fifo_urgent_discovery sampleUrgentStore ["echo"] sampleTask1 sampleTask2
    0 1 (by decide) (by decide)

/-- C2: durable promotion.  `assign_task(id, agent)` returns `Conflict`
iff the key `cap|id` is absent from the `unassigned` tree; when present,
after the call the key is gone from `unassigned` and an `AssignedTask`
record for it sits in `assigned` (with `archived` untouched); on
`Conflict` the whole storage is unchanged. -/
theorem C2_durable_assign_atomic (st : TaskStorage) (id : TaskId)
    (agent_id : String) (now : DateTime) :
    ((∃ msg, (st.assign_task id agent_id now).1 =
        Except.error (AppError.Conflict msg)) ↔
      kvLookup (TaskStorage.make_key id) st.unassigned = none) ∧
    (∀ u, kvLookup (TaskStorage.make_key id) st.unassigned = some u →
      (st.assign_task id agent_id now).1 =
          Except.ok (u.assign_to agent_id now) ∧
      kvLookup (TaskStorage.make_key id)
          (st.assign_task id agent_id now).2.unassigned = none ∧
      kvLookup (TaskStorage.make_key id)
          (st.assign_task id agent_id now).2.assigned =
        some (u.assign_to agent_id now) ∧
      (st.assign_task id agent_id now).2.archived = st.archived) ∧
    (kvLookup (TaskStorage.make_key id) st.unassigned = none →
      st.assign_task id agent_id now =
        (Except.error (AppError.Conflict
          ("Unassigned task not found: " ++ id.display)), st)) := by
  cases hl : kvLookup (TaskStorage.make_key id) st.unassigned with
  | some u0 =>
    refine ⟨?_, ?_, ?_⟩
    · simp [TaskStorage.assign_task, hl]
    · intro u hu
      cases hu
      refine ⟨?_, ?_, ?_, ?_⟩ <;>
        simp [TaskStorage.assign_task, hl, kvLookup_kvErase_self,
          kvLookup_kvInsert_self]
    · intro h
      cases h
  | none =>
    refine ⟨?_, ?_, ?_⟩
    · simp [TaskStorage.assign_task, hl]
    · intro u hu
      cases hu
    · intro _
      simp [TaskStorage.assign_task, hl]

/-- C2 witness: promoting `sampleTask1` out of `sampleStorage`. -/
theorem C2_durable_assign_atomic_witness :
    (sampleStorage.assign_task sampleTask1.id "agent-1" 5).1 =
        Except.ok (sampleTask1.assign_to "agent-1" 5) ∧
    kvLookup (TaskStorage.make_key sampleTask1.id)
        (sampleStorage.assign_task sampleTask1.id "agent-1" 5).2.unassigned =
      none ∧
    kvLookup (TaskStorage.make_key sampleTask1.id)
        (sampleStorage.assign_task sampleTask1.id "agent-1" 5).2.assigned =
      some (sampleTask1.assign_to "agent-1" 5) ∧
    (sampleStorage.assign_task sampleTask1.id "agent-1" 5).2.archived =
      sampleStorage.archived :=
  (C2_durable_assign_atomic sampleStorage sampleTask1.id "agent-1" 5).2.1
    sampleTask1 (by decide)

/-- C3 counterexample: the durable promotion of `sampleTask1` succeeds but
the synthesized record's status is `Pending` (the `TaskStatus` default
filled in by `..AssignedTask::default()`), not `Queued` as the claim
states. -/
theorem C3_counterexample :
    (sampleStorage.assign_task sampleTask1.id "agent-1" 5).1 =
        Except.ok (sampleTask1.assign_to "agent-1" 5) ∧
    (sampleTask1.assign_to "agent-1" 5).status = TaskStatus.Pending ∧
    TaskStatus.Pending ≠ TaskStatus.Queued := by
  refine ⟨by decide, rfl, by decide⟩

/-- C3 amended: a successful durable `assign_task(id, agent_id)`
synthesizes an `AssignedTask` whose status is `Pending` (the default), not
`Queued`, and whose `assigned_at` is stamped with the current time — hence
`assigned_at ≥ created_at` whenever the clock reads at least the creation
time. -/
theorem C3_amended_assign_status (st : TaskStorage) (id : TaskId)
    (agent_id : String) (now : DateTime) (u : UnassignedTask)
    (hu : kvLookup (TaskStorage.make_key id) st.unassigned = some u)
    (hc : u.created_at ≤ now) :
    (st.assign_task id agent_id now).1 =
        Except.ok (u.assign_to agent_id now) ∧
    (u.assign_to agent_id now).status = TaskStatus.Pending ∧
    (u.assign_to agent_id now).assigned_at = now ∧
    u.created_at ≤ (u.assign_to agent_id now).assigned_at := by
  refine ⟨?_, rfl, rfl, ?_⟩
  · simp [TaskStorage.assign_task, hu]
  · simpa [UnassignedTask.assign_to] using hc

/-- C3 witness: the amended theorem applied to `sampleStorage` at time 5. -/
theorem C3_amended_assign_status_witness :
    (sampleStorage.assign_task sampleTask1.id "agent-1" 5).1 =
        Except.ok (sampleTask1.assign_to "agent-1" 5) ∧
    (sampleTask1.assign_to "agent-1" 5).status = TaskStatus.Pending ∧
    (sampleTask1.assign_to "agent-1" 5).assigned_at = 5 ∧
    sampleTask1.created_at ≤ (sampleTask1.assign_to "agent-1" 5).assigned_at :=
  C3_amended_assign_status sampleStorage sampleTask1.id "agent-1" 5
    sampleTask1 (by decide) (by decide)

/-- `assign_task` on a `Pending` entry: winner case — overwrite
`assigned_task`, move to `Assigned`, broadcast, return true. -/
theorem assign_task_of_pending (s : UrgentTaskStore) (id : TaskId)
    (a : String) (n : DateTime) (e : UrgentTaskEntry)
    (he : s.lookup id = some e) (hp : e.state.status = TaskStatus.Pending) :
    s.assign_task id a n =
      (true, UrgentTaskStore.mk (UrgentTaskStore.replaceEntry id
        { e with
          assigned_task := some (e.task.assign_to a n)
          state := { status := TaskStatus.Assigned
                     notify_last := TaskStatus.Assigned } } s.tasks)) := by
  simp [UrgentTaskStore.assign_task, he, hp]

/-- `assign_task` on a non-`Pending` entry: returns false with the status
and notification untouched, but the `assigned_task` overwrite has already
happened. -/
theorem assign_task_of_not_pending (s : UrgentTaskStore) (id : TaskId)
    (a : String) (n : DateTime) (e : UrgentTaskEntry)
    (he : s.lookup id = some e) (hp : e.state.status ≠ TaskStatus.Pending) :
    s.assign_task id a n =
      (false, UrgentTaskStore.mk (UrgentTaskStore.replaceEntry id
        { e with assigned_task := some (e.task.assign_to a n) } s.tasks)) := by
  simp [UrgentTaskStore.assign_task, he, hp]

/-- Once an urgent entry has left `Pending`, no `assign_task` or
`complete_task` call (on any id) brings it back, removes it, or changes
its underlying task. -/
theorem nonPendingWithTask_applyUrgentOp (s : UrgentTaskStore) (id : TaskId)
    (t : UnassignedTask) (op : UrgentOp) (h : nonPendingWithTask s id t) :
    nonPendingWithTask (applyUrgentOp s op) id t := by
  obtain ⟨e, he, hst, htask⟩ := h
  cases op with
  | assignOp id' a n =>
    by_cases hid : id' = id
    · subst hid
      rw [applyUrgentOp, assign_task_of_not_pending s id' a n e he hst]
      refine ⟨{ e with assigned_task := some (e.task.assign_to a n) }, ?_,
        hst, htask⟩
      rw [lookup_replaceEntry_self]
      simp [he]
    · cases hlo : s.lookup id' with
      | none =>
        rw [applyUrgentOp]
        simp only [UrgentTaskStore.assign_task, hlo]
        exact ⟨e, he, hst, htask⟩
      | some e' =>
        by_cases hp : e'.state.status = TaskStatus.Pending
        · rw [applyUrgentOp, assign_task_of_pending s id' a n e' hlo hp]
          refine ⟨e, ?_, hst, htask⟩
          rw [lookup_replaceEntry_ne _ _ _ _ (fun hh => hid hh.symm)]
          exact he
        · rw [applyUrgentOp, assign_task_of_not_pending s id' a n e' hlo hp]
          refine ⟨e, ?_, hst, htask⟩
          rw [lookup_replaceEntry_ne _ _ _ _ (fun hh => hid hh.symm)]
          exact he
  | completeOp id' success payload =>
    by_cases hid : id' = id
    · subst hid
      cases hat : e.assigned_task with
      | none =>
        simp only [applyUrgentOp, UrgentTaskStore.complete_task, he, hat]
        exact ⟨e, he, hst, htask⟩
      | some a0 =>
        simp only [applyUrgentOp, UrgentTaskStore.complete_task, he, hat]
        refine ⟨{ e with
            assigned_task := some { a0 with result := some payload }
            state := { status := if success then TaskStatus.Completed
                                 else TaskStatus.Failed
                       notify_last := if success then TaskStatus.Completed
                                      else TaskStatus.Failed } },
          ?_, ?_, htask⟩
        · rw [lookup_replaceEntry_self]
          simp [he]
        · cases success <;> simp
    · cases hlo : s.lookup id' with
      | none =>
        simp only [applyUrgentOp, UrgentTaskStore.complete_task, hlo]
        exact ⟨e, he, hst, htask⟩
      | some e' =>
        cases hat : e'.assigned_task with
        | none =>
          simp only [applyUrgentOp, UrgentTaskStore.complete_task, hlo, hat]
          exact ⟨e, he, hst, htask⟩
        | some a0 =>
          simp only [applyUrgentOp, UrgentTaskStore.complete_task, hlo, hat]
          refine ⟨e, ?_, hst, htask⟩
          rw [lookup_replaceEntry_ne _ _ _ _ (fun hh => hid hh.symm)]
          exact he

/-- The non-`Pending` invariant is preserved by any sequence of urgent
store calls. -/
theorem nonPendingWithTask_applyUrgentOps (ops : List UrgentOp)
    (s : UrgentTaskStore) (id : TaskId) (t : UnassignedTask)
    (h : nonPendingWithTask s id t) :
    nonPendingWithTask (applyUrgentOps s ops) id t := by
  induction ops generalizing s with
  | nil => exact h
  | cons op rest ih =>
    exact ih (applyUrgentOp s op) (nonPendingWithTask_applyUrgentOp s id t op h)

/-- C1 counterexample: agent `"a1"` wins the urgent pick-up of
`sampleTask1` (first `assign_task` returns true); a second `assign_task`
by `"a2"` returns false — but it is not a no-op on the entry: the stored
`assigned_task.agent_id` is now `"a2"`, not the winner `"a1"` as the claim
states. -/
theorem C1_counterexample :
    (sampleUrgentStore.assign_task sampleTask1.id "a1" 1).1 = true ∧
    (sampleUrgentStoreAssigned.assign_task sampleTask1.id "a2" 2).1 = false ∧
    ((sampleUrgentStoreAssigned.assign_task sampleTask1.id
          "a2" 2).2.get_assigned_task sampleTask1.id).map
        (fun a => a.agent_id) = some "a2" ∧
    some "a2" ≠ some ("a1" : String) := by
  decide

/-- C1 amended: at-most-one urgent *winner*.  If a first
`assign_task(id, a1)` returns true, then after any sequence of further
`assign_task` / `complete_task` calls, every subsequent
`assign_task(id, a2)` returns false and leaves the entry's status and
notification channel unchanged — but it is not a no-op on the entry: it
overwrites `assigned_task` with `task.assign_to(a2)`, so the recorded
`agent_id` is the most recent caller's, not the winner's. -/
theorem C1_amended_at_most_one_assignment (s : UrgentTaskStore) (id : TaskId)
    (e : UrgentTaskEntry) (a1 a2 : String) (n1 n2 : DateTime)
    (ops : List UrgentOp) (he : s.lookup id = some e)
    (hp : e.state.status = TaskStatus.Pending) :
    (s.assign_task id a1 n1).1 = true ∧
    ((applyUrgentOps (s.assign_task id a1 n1).2 ops).assign_task id
        a2 n2).1 = false ∧
    (∃ e', (applyUrgentOps (s.assign_task id a1 n1).2 ops).lookup id =
          some e' ∧
      e'.task = e.task ∧
      e'.state.status ≠ TaskStatus.Pending ∧
      ((applyUrgentOps (s.assign_task id a1 n1).2 ops).assign_task id
            a2 n2).2.lookup id =
        some { e' with assigned_task := some (e.task.assign_to a2 n2) } ∧
      (e.task.assign_to a2 n2).agent_id = a2) := by
  have hwin := assign_task_of_pending s id a1 n1 e he hp
  have hinv : nonPendingWithTask (s.assign_task id a1 n1).2 id e.task := by
    rw [hwin]
    refine ⟨{ e with
        assigned_task := some (e.task.assign_to a1 n1)
        state := { status := TaskStatus.Assigned
                   notify_last := TaskStatus.Assigned } }, ?_, by simp, rfl⟩
    rw [lookup_replaceEntry_self]
    simp [he]
  obtain ⟨e', he', hst', htask'⟩ :=
    nonPendingWithTask_applyUrgentOps ops _ id e.task hinv
  have hlose := assign_task_of_not_pending _ id a2 n2 e' he' hst'
  refine ⟨by rw [hwin], by rw [hlose], e', he', htask', hst', ?_, rfl⟩
  rw [hlose, lookup_replaceEntry_self]
  simp [he', htask']

/-- C1 witness: the amended theorem at `sampleUrgentStore`, winner `"a1"`,
an empty interleaving, and loser `"a2"`. -/
theorem C1_amended_at_most_one_assignment_witness :
    (sampleUrgentStore.assign_task sampleTask1.id "a1" 1).1 = true ∧
    ((applyUrgentOps (sampleUrgentStore.assign_task sampleTask1.id
        "a1" 1).2 []).assign_task sampleTask1.id "a2" 2).1 = false ∧
    (∃ e', (applyUrgentOps (sampleUrgentStore.assign_task sampleTask1.id
          "a1" 1).2 []).lookup sampleTask1.id = some e' ∧
      e'.task = sampleEntry1.task ∧
      e'.state.status ≠ TaskStatus.Pending ∧
      ((applyUrgentOps (sampleUrgentStore.assign_task sampleTask1.id
            "a1" 1).2 []).assign_task sampleTask1.id "a2" 2).2.lookup
          sampleTask1.id =
        some { e' with
          assigned_task := some (sampleEntry1.task.assign_to "a2" 2) } ∧
      (sampleEntry1.task.assign_to "a2" 2).agent_id = "a2") :=
  C1_amended_at_most_one_assignment sampleUrgentStore sampleTask1.id
    sampleEntry1 "a1" "a2" 1 2 [] (by decide) (by decide)

/-- C6: urgent submission gatekeeper.  `submit_urgent(task)` fails with
`SchedulingImpossible` iff no agent in the registry is both online and
advertises the task's capability; otherwise it inserts the task into the
urgent store with status `Pending` and a TTL of 60 seconds (the state in
which the blocking wait for a terminal status then begins). -/
theorem C6_submit_urgent_gatekeeper (store : UrgentTaskStore)
    (agents : List Agent) (task : UnassignedTask) (now : DateTime) :
    (submit_urgent_task_gate store agents task now =
        Except.error (AppError.SchedulingImpossible
          ("no online runners for capability " ++ task.id.cap)) ↔
      ¬∃ agent ∈ agents, task.id.cap ∈ agent.capabilities ∧
          agent.is_online now = true) ∧
    (∀ s', submit_urgent_task_gate store agents task now = Except.ok s' →
      s' = store.add_task task 60 now ∧
      s'.lookup task.id = some
        { task := task, assigned_task := none,
          state := { status := TaskStatus.Pending
                     notify_last := TaskStatus.Pending },
          created_at := now, ttl := 60 }) := by
  by_cases hpa : has_potential_agents_for task.id.cap agents now
  · have hex : ∃ agent ∈ agents, task.id.cap ∈ agent.capabilities ∧
        agent.is_online now = true := by
      simpa [has_potential_agents_for, List.any_eq_true] using hpa
    have hgate : submit_urgent_task_gate store agents task now =
        Except.ok (store.add_task task 60 now) := by
      simp [submit_urgent_task_gate, hpa]
    constructor
    · exact iff_of_false (by simp [hgate]) (not_not_intro hex)
    · intro s' hs'
      rw [hgate] at hs'
      cases hs'
      exact ⟨rfl, lookup_indexInsert_self store.tasks task.id _⟩
  · have hnex : ¬∃ agent ∈ agents, task.id.cap ∈ agent.capabilities ∧
        agent.is_online now = true := by
      simpa [has_potential_agents_for, List.any_eq_true] using hpa
    have hgate : submit_urgent_task_gate store agents task now =
        Except.error (AppError.SchedulingImpossible
          ("no online runners for capability " ++ task.id.cap)) := by
      simp [submit_urgent_task_gate, hpa]
    constructor
    · exact iff_of_true hgate hnex
    · intro s' hs'
      rw [hgate] at hs'
      cases hs'

/-- C6 witness: with the online `"echo"` agent at time 150, submitting
`sampleTask1` passes the gate and the entry sits `Pending` with TTL 60. -/
theorem C6_submit_urgent_gatekeeper_witness :
    emptyUrgentStore.add_task sampleTask1 60 150 =
        emptyUrgentStore.add_task sampleTask1 60 150 ∧
    (emptyUrgentStore.add_task sampleTask1 60 150).lookup sampleTask1.id =
      some { task := sampleTask1, assigned_task := none,
             state := { status := TaskStatus.Pending
                        notify_last := TaskStatus.Pending },
             created_at := 150, ttl := 60 } :=
  (C6_submit_urgent_gatekeeper emptyUrgentStore [sampleAgent] sampleTask1
      150).2 (emptyUrgentStore.add_task sampleTask1 60 150) (by decide)

/-- C7: `complete_task` contract.  For an existing entry:
`Conflict` when its `assigned_task` is none; otherwise the payload is
written into `assigned_task.result`, the status moves to `Completed` when
`success` and `Failed` otherwise, and the new status is broadcast on the
entry's notification channel. -/
theorem C7_complete_task_contract (s : UrgentTaskStore) (id : TaskId)
    (success : Bool) (payload : JsonValue) (e : UrgentTaskEntry)
    (he : s.lookup id = some e) :
    (e.assigned_task = none →
      s.complete_task id success payload =
        Except.error (AppError.Conflict "Task is not assigned but reported")) ∧
    (∀ a, e.assigned_task = some a →
      ∃ s', s.complete_task id success payload = Except.ok s' ∧
        s'.lookup id = some { e with
          assigned_task := some { a with result := some payload }
          state := { status := if success then TaskStatus.Completed
                               else TaskStatus.Failed
                     notify_last := if success then TaskStatus.Completed
                                    else TaskStatus.Failed } }) := by
  constructor
  · intro hat
    simp [UrgentTaskStore.complete_task, he, hat]
  · intro a hat
    refine ⟨UrgentTaskStore.mk (UrgentTaskStore.replaceEntry id
      { e with
        assigned_task := some { a with result := some payload }
        state := { status := if success then TaskStatus.Completed
                             else TaskStatus.Failed
                   notify_last := if success then TaskStatus.Completed
                                  else TaskStatus.Failed } } s.tasks),
      ?_, ?_⟩
    · simp [UrgentTaskStore.complete_task, he, hat]
    · rw [lookup_replaceEntry_self]
      simp [he]

/-- C7 witness: completing the assigned `sampleTask1` with success. -/
theorem C7_complete_task_contract_witness :
    ∃ s', sampleUrgentStoreAssigned.complete_task sampleTask1.id true "out" =
        Except.ok s' ∧
      s'.lookup sampleTask1.id = some { sampleAssignedEntry with
        assigned_task := some { sampleTask1.assign_to "a1" 1 with
          result := some "out" }
        state := { status := if true then TaskStatus.Completed
                             else TaskStatus.Failed
                   notify_last := if true then TaskStatus.Completed
                                  else TaskStatus.Failed } } :=
  (C7_complete_task_contract sampleUrgentStoreAssigned sampleTask1.id true
      "out" sampleAssignedEntry (by decide)).2
    (sampleTask1.assign_to "a1" 1) (by decide)

/-- C8 counterexample: `samplePollState` stores `sampleTask1` (durable
`assigned`) under api key `"key1"`; polling it with `"key2"` yields
`NotFound` (404) — not the authorization (403-equivalent) error the claim
states. -/
theorem C8_counterexample :
    poll_task_status samplePollState sampleTask1.id "key2" =
        Except.error (AppError.NotFound sampleTask1.id.display) ∧
    isAuthorizationFailure
        (poll_task_status samplePollState sampleTask1.id "key2") = false := by
  decide

/-- C8 amended: on an `apiKey` mismatch the handler treats the durable hit
as a miss: whenever every durable record under the id carries a different
key and the urgent store has no assigned shell for it, the poll fails with
`NotFound` (404) — the same answer as for an id in no store — and never
with an authorization error. -/
theorem C8_amended_poll_mismatch (st : AppStateModel) (task_id : TaskId)
    (api_key : String)
    (hA : ∀ a, st.tasks.get_assigned task_id = some a → a.api_key ≠ api_key)
    (hU : ∀ u, st.tasks.get_unassigned task_id = some u → u.api_key ≠ api_key)
    (hG : st.urgent.get_assigned_task task_id = none) :
    poll_task_status st task_id api_key =
        Except.error (AppError.NotFound task_id.display) ∧
    isAuthorizationFailure (poll_task_status st task_id api_key) = false := by
  have hpoll : poll_task_status st task_id api_key =
      Except.error (AppError.NotFound task_id.display) := by
    unfold poll_task_status
    cases hA' : st.tasks.get_assigned task_id with
    | some a =>
      cases hU' : st.tasks.get_unassigned task_id with
      | some u => simp [hA a hA', hU u hU', hG]
      | none => simp [hA a hA', hG]
    | none =>
      cases hU' : st.tasks.get_unassigned task_id with
      | some u => simp [hU u hU', hG]
      | none => simp [hG]
  exact ⟨hpoll, by rw [hpoll]; rfl⟩

/-- C8 witness: the amended theorem at `samplePollState` with the
mismatching key `"key2"`. -/
theorem C8_amended_poll_mismatch_witness :
    poll_task_status samplePollState sampleTask1.id "key2" =
        Except.error (AppError.NotFound sampleTask1.id.display) ∧
    isAuthorizationFailure
        (poll_task_status samplePollState sampleTask1.id "key2") = false :=
  C8_amended_poll_mismatch samplePollState sampleTask1.id "key2"
    (fun a ha => by cases ha; decide)
    (fun u hu => by
      simp [samplePollState, TaskStorage.get_unassigned, kvLookup] at hu)
    (by decide)

/-- C10: an urgent task that has been added but not yet assigned is
invisible to the client status poll — when the id misses both durable
trees and the urgent entry still has `assigned_task = none`, the poll
returns `NotFound`; and the urgent branch of the handler can only ever
answer with an `AssignedTask` that `assign_task` has stored into the
entry's `assigned_task`. -/
theorem C10_unassigned_urgent_invisible (st : AppStateModel)
    (task_id : TaskId) (api_key : String) :
    ((st.tasks.get_assigned task_id = none ∧
      st.tasks.get_unassigned task_id = none ∧
      (∃ e, st.urgent.lookup task_id = some e ∧ e.assigned_task = none)) →
      poll_task_status st task_id api_key =
        Except.error (AppError.NotFound task_id.display)) ∧
    (∀ a, poll_task_status st task_id api_key =
        Except.ok (PollResponse.urgentTask a) →
      ∃ e, st.urgent.lookup task_id = some e ∧
        e.assigned_task = some a) := by
  constructor
  · rintro ⟨hA, hU, e, he, hn⟩
    have hG : st.urgent.get_assigned_task task_id = none := by
      simp [UrgentTaskStore.get_assigned_task, he, hn]
    simp [poll_task_status, hA, hU, hG]
  · intro a hok
    unfold poll_task_status at hok
    have hurg : st.urgent.get_assigned_task task_id = some a := by
      cases hA' : st.tasks.get_assigned task_id with
      | some x =>
        rw [hA'] at hok
        by_cases hx : x.api_key ≠ api_key
        · simp only [if_pos hx] at hok
          cases hU' : st.tasks.get_unassigned task_id with
          | some u =>
            rw [hU'] at hok
            by_cases hu : u.api_key ≠ api_key
            · simp only [if_pos hu] at hok
              cases hg : st.urgent.get_assigned_task task_id with
              | some w => rw [hg] at hok; cases hok; rfl
              | none => rw [hg] at hok; cases hok
            · simp only [if_neg hu] at hok
              cases hok
          | none =>
            rw [hU'] at hok
            cases hg : st.urgent.get_assigned_task task_id with
            | some w => rw [hg] at hok; cases hok; rfl
            | none => rw [hg] at hok; cases hok
        · simp only [if_neg hx] at hok
          cases hok
      | none =>
        rw [hA'] at hok
        cases hU' : st.tasks.get_unassigned task_id with
        | some u =>
          rw [hU'] at hok
          by_cases hu : u.api_key ≠ api_key
          · simp only [if_pos hu] at hok
            cases hg : st.urgent.get_assigned_task task_id with
            | some w => rw [hg] at hok; cases hok; rfl
            | none => rw [hg] at hok; cases hok
          · simp only [if_neg hu] at hok
            cases hok
        | none =>
          rw [hU'] at hok
          cases hg : st.urgent.get_assigned_task task_id with
          | some w => rw [hg] at hok; cases hok; rfl
          | none => rw [hg] at hok; cases hok
    unfold UrgentTaskStore.get_assigned_task at hurg
    cases hl : st.urgent.lookup task_id with
    | some e => rw [hl] at hurg; exact ⟨e, rfl, hurg⟩
    | none => rw [hl] at hurg; cases hurg

/-- C10 witness: the first part applied to a state whose urgent store
holds the still-unassigned `sampleTask1` and whose durable trees are
empty. -/
theorem C10_unassigned_urgent_invisible_witness :
    poll_task_status
        { tasks := { unassigned := [], assigned := [], archived := [] }
          urgent := sampleUrgentStore } sampleTask1.id "key1" =
      Except.error (AppError.NotFound sampleTask1.id.display) :=
  (C10_unassigned_urgent_invisible
      { tasks := { unassigned := [], assigned := [], archived := [] }
        urgent := sampleUrgentStore } sampleTask1.id "key1").1
    ⟨rfl, rfl, sampleEntry1, by decide, rfl⟩

end Offloadmq
